import Mathlib

/-!
# Verification of googlesource-cookieauth (googlesource-auth-tools)

A shallow embedding of `src/googlesource-cookieauth/main.go`.  The program
resolves a set of target URLs from git configuration, requests a token per
URL from an external credential provider, converts the tokens into cookie
records and writes them to an output sink (a file or standard output); a
daemon mode repeats this on a 45-minute timer.

External collaborators (the `credentials` package of this repository, whose
source is not vendored here, and the third-party `nscjar` serializer) are
modelled as components of an environment record; the control flow of
`main.go` itself is translated function by function.
-/

namespace GoogleSourceCookieAuth

/-- The part of Go's `url.URL` that `main.go` reads or constructs:
scheme, host and path. -/
structure URL where
  scheme : String
  host : String
  path : String
deriving DecidableEq, Repr

/-- The default URL `&url.URL{Scheme: "https", Host: "googlesource.com"}`
appended by `writeCookie` (the zero value of `Path` is the empty string). -/
def gsURL : URL := ⟨"https", "googlesource.com", ""⟩

/-- The default URL
`&url.URL{Scheme: "https", Host: "source.developers.google.com"}`
appended by `writeCookie`. -/
def sdURL : URL := ⟨"https", "source.developers.google.com", ""⟩

/-- The test `u.Host == "googlesource.com" && (u.Path == "" || u.Path == "/")`
from the scanning loop of `writeCookie`. -/
def isGoogleSource (u : URL) : Bool :=
  u.host == "googlesource.com" && (u.path == "" || u.path == "/")

/-- The test
`u.Host == "source.developers.google.com" && (u.Path == "" || u.Path == "/")`
from the scanning loop of `writeCookie`. -/
def isSourceDevelopers (u : URL) : Bool :=
  u.host == "source.developers.google.com" && (u.path == "" || u.path == "/")

/-- URL normalization step of `writeCookie`: scan the configured URLs for
the two well-known hosts (exact host, empty or root path) and append a
default URL for each host not present. -/
def normalizeURLs (urls : List URL) : List URL :=
  let hasGoogleSource := urls.any isGoogleSource
  let hasSourceDevelopers := urls.any isSourceDevelopers
  let urls := if hasGoogleSource then urls else urls ++ [gsURL]
  if hasSourceDevelopers then urls else urls ++ [sdURL]

/-- Modelled from the spec: a token is "opaque credential material obtained
per target URL from an external provider". -/
structure Token where
  value : String
deriving DecidableEq, Repr

/-- Modelled from the spec: a cookie record has "domain, path, value,
expiry, and secure flag"; `main.go` never inspects its fields. -/
structure Cookie where
  domain : String
  path : String
  value : String
  expiry : Nat
  secure : Bool
deriving DecidableEq, Repr

/-- Output sink of a run: standard output (`outputFile == "-"`) or a file. -/
inductive Sink where
  | stdout : Sink
  | file (path : String) : Sink
deriving DecidableEq, Repr

/-- A filesystem call made by `writeCookie`: `os.MkdirAll(dir, perm)` or
`os.OpenFile(path, O_CREATE|O_WRONLY|O_TRUNC, perm)` (the three flags are
recorded as the booleans `create`, `wronly`, `trunc`). -/
inductive FsCall where
  | mkdirAll (dir : String) (perm : Nat) : FsCall
  | openFile (path : String) (create wronly trunc : Bool) (perm : Nat) : FsCall
deriving DecidableEq, Repr

/-- Modelled from the spec: the external collaborators of `main.go` that are
not vendored under `src/` — the credential-discovery component of this
repository ("find tool", "list configured URLs", "read a named config
value", "produce a token for a URL", conversion of a token into "one or
more cookie records"), the current-user lookup, the `nscjar` serializer
("marshal one cookie record to a writer", "one cookie per line"), and the
possible outcomes of the filesystem and write calls.  Fallible collaborators
return `Except`; `mkdirAllErr`/`openFileErr` give the error, if any, of the
corresponding filesystem call; `fprintfHeaderErr` and `marshalErr` are the
errors of the header write and of each cookie marshal, which the Go code
never reads. -/
structure Env where
  findGitBinary : Except String Unit
  listURLs : Except String (List URL)
  makeToken : URL → Except String Token
  makeCookies : URL → Token → List Cookie
  pathConfig : Except String String
  currentUserHome : Except String String
  mkdirAllErr : String → Option String
  openFileErr : String → Option String
  argv0 : String
  now : String
  fprintfHeaderErr : Option String
  marshalErr : Cookie → Option String
  serialize : Cookie → String

/-- Everything observable about one `writeCookie` run: the URLs for which a
token was requested (in request order), the filesystem calls made, the text
lines written to the sink, the sink that was resolved and opened (if the
run got that far), and the returned error, if any. -/
structure RunOutput where
  requests : List URL
  fsCalls : List FsCall
  lines : List String
  sink : Option Sink
  result : Except String Unit
deriving Repr

/-- The token-acquisition loop of `writeCookie`:
`credentials.MakeToken` is called for each URL in order and the loop stops
at the first failure.  Returns the URLs requested so far and either the
accumulated cookies (`credentials.MakeCookies(u, token)` appended per URL)
or the first error. -/
def acquireCookies (env : Env) : List URL → List URL × Except String (List Cookie)
  | [] => ([], .ok [])
  | u :: rest =>
    match env.makeToken u with
    | .error e => ([u], .error ("cannot create a token for " ++ u.host ++ ": " ++ e))
    | .ok token =>
      let (reqs, res) := acquireCookies env rest
      (u :: reqs,
       match res with
       | .error e => .error e
       | .ok cs => .ok (env.makeCookies u token ++ cs))

/-- The cookie records produced by the acquisition loop when every token
request succeeds: the per-URL cookie lists concatenated in URL order. -/
def producedCookies (env : Env) : List URL → List Cookie
  | [] => []
  | u :: rest =>
    (match env.makeToken u with
     | .ok token => env.makeCookies u token
     | .error _ => []) ++ producedCookies env rest

/-- `filepath.Dir` for slash-separated paths without redundant separators:
everything up to the final slash, or `"."` when there is none. -/
def dirOf (p : String) : String :=
  let parts := p.splitOn "/"
  if parts.length ≤ 1 then "." else String.intercalate "/" parts.dropLast

/-- Output-destination resolution of `writeCookie`: the `google.cookieFile`
config value when non-empty, otherwise
`filepath.Join(u.HomeDir, ".git-credential-cache", "googlesource-cookieauth-cookie")`
for the current user (whose lookup can fail). -/
def resolveOutputFile (cfg : String) (currentUserHome : Except String String) :
    Except String String :=
  if cfg == "" then
    match currentUserHome with
    | .error e => .error ("cannot get the current user: " ++ e)
    | .ok home => .ok (home ++ "/.git-credential-cache/googlesource-cookieauth-cookie")
  else .ok cfg

/-- The header comment line
`fmt.Fprintf(w, "# Created by %s at %s\n", os.Args[0], time.Now().Format(time.RFC3339))`;
the formatted timestamp is the environment's `now` string. -/
def headerLine (env : Env) : String :=
  "# Created by " ++ env.argv0 ++ " at " ++ env.now

/-- The lines `writeCookie` writes to the sink: the header comment line,
then one serialized line per cookie record in order (the `nscjar` marshal
loop). -/
def outputLines (env : Env) (cookies : List Cookie) : List String :=
  headerLine env :: cookies.map env.serialize

/-- Shallow embedding of `writeCookie` from `main.go`, step for step:
find the git binary, list the configured URLs, normalize them, acquire a
token and cookies per URL (aborting on the first failure), resolve the
output destination, open the sink (creating directories and truncating the
file when the destination is a path), then write the header and the cookie
lines, discarding any write errors, and return `nil`. -/
def writeCookie (env : Env) : RunOutput :=
  match env.findGitBinary with
  | .error e => ⟨[], [], [], none, .error ("cannot find the git binary: " ++ e)⟩
  | .ok _ =>
  match env.listURLs with
  | .error e =>
    ⟨[], [], [], none, .error ("cannot read the list of URLs in git-config: " ++ e)⟩
  | .ok urls0 =>
  let urls := normalizeURLs urls0
  match acquireCookies env urls with
  | (reqs, .error e) => ⟨reqs, [], [], none, .error e⟩
  | (reqs, .ok cookies) =>
  match env.pathConfig with
  | .error e =>
    ⟨reqs, [], [], none, .error ("cannot read google.cookieFile in git-config: " ++ e)⟩
  | .ok cfg =>
  match resolveOutputFile cfg env.currentUserHome with
  | .error e => ⟨reqs, [], [], none, .error e⟩
  | .ok outputFile =>
  if outputFile == "-" then
    ⟨reqs, [], outputLines env cookies, some .stdout, .ok ()⟩
  else
    let dir := dirOf outputFile
    match env.mkdirAllErr dir with
    | some e =>
      ⟨reqs, [.mkdirAll dir 0o700], [], none,
       .error ("cannot create the output directory: " ++ e)⟩
    | none =>
    match env.openFileErr outputFile with
    | some e =>
      ⟨reqs, [.mkdirAll dir 0o700, .openFile outputFile true true true 0o600], [], none,
       .error ("cannot open the output file: " ++ e)⟩
    | none =>
      ⟨reqs, [.mkdirAll dir 0o700, .openFile outputFile true true true 0o600],
       outputLines env cookies, some (.file outputFile), .ok ()⟩

/-- Outcome of the one-shot branch of `main`: `log.Fatalf` (message printed,
process exits non-zero) on error, or a normal return (exit code 0). -/
inductive ProcessOutcome where
  | fatalExit (msg : String) : ProcessOutcome
  | normalExit : ProcessOutcome
deriving DecidableEq, Repr

/-- The `else` branch of `main`: run `writeCookie` once and call
`log.Fatalf("Cannot write cookies: %v", err)` on failure. -/
def oneShotMain (res : Except String Unit) : ProcessOutcome :=
  match res with
  | .error e => .fatalExit ("Cannot write cookies: " ++ e)
  | .ok _ => .normalExit

/-- State of a Go `time.Timer` as far as this single-goroutine program can
observe it: `active` — the timer is running and will eventually fire;
`pending` — a fired value sits unread in the buffered channel `timer.C`.
Go semantics used: firing sets `active := false, pending := true`;
`Stop` returns the old `active` and sets `active := false` without draining
the channel; `Reset` sets `active := true` without draining the channel;
a receive on `timer.C` consumes a pending value, waits for the fire when
the timer is active, and otherwise blocks forever. -/
structure TimerState where
  active : Bool
  pending : Bool
deriving DecidableEq, Repr

/-- Program counter of the daemon loop in `main`:
`run` — about to call `writeCookie` and log the outcome;
`drain` — about to execute `if !timer.Stop() { <-timer.C }; timer.Reset(...)`;
`wait` — about to execute the final `<-timer.C` of the loop body;
`blocked` — a channel receive that can never complete (deadlock). -/
inductive LoopPC where
  | run : LoopPC
  | drain : LoopPC
  | wait : LoopPC
  | blocked : LoopPC
deriving DecidableEq, Repr

/-- State of the daemon loop: program counter, timer state, number of
completed `writeCookie` runs, and the `log.Printf` messages so far. -/
structure DaemonState where
  pc : LoopPC
  timer : TimerState
  runs : Nat
  logs : List String
deriving DecidableEq, Repr

/-- One step of the daemon loop of `main`.  `results n` is the outcome of
the `(n+1)`-st call to `writeCookie` (the collaborators' behaviour may
change between iterations).  At `run`, `writeCookie` executes and its
outcome is logged — an error is logged with `log.Printf`, never fatal.
At `drain`, `timer.Stop()` is called; if it returns `false` the code
receives from `timer.C`, which consumes a pending fired value if there is
one and otherwise blocks forever (the timer is stopped, so no fire is
coming); then `timer.Reset` restarts the timer.  At `wait`, `<-timer.C`
consumes a pending value or waits for the active timer to fire after the
45-minute interval; with the timer neither active nor pending it blocks
forever. -/
def daemonStep (results : Nat → Except String Unit) (s : DaemonState) : DaemonState :=
  match s.pc with
  | .run =>
    let msg :=
      match results s.runs with
      | .error e => "Cannot write cookies: " ++ e
      | .ok _ => "Wrote cookies"
    { s with pc := .drain, runs := s.runs + 1, logs := s.logs ++ [msg] }
  | .drain =>
    if s.timer.active then
      { s with pc := .wait, timer := ⟨true, s.timer.pending⟩ }
    else if s.timer.pending then
      { s with pc := .wait, timer := ⟨true, false⟩ }
    else
      { s with pc := .blocked, timer := ⟨false, false⟩ }
  | .wait =>
    if s.timer.pending then
      { s with pc := .run, timer := ⟨s.timer.active, false⟩ }
    else if s.timer.active then
      { s with pc := .run, timer := ⟨false, false⟩ }
    else
      { s with pc := .blocked }
  | .blocked => s

/-- Initial daemon state: `time.NewTimer(refreshInterval)` starts an active
timer with an empty channel, and control enters the loop at the
`writeCookie` call. -/
def daemonInit : DaemonState := ⟨.run, ⟨true, false⟩, 0, []⟩

/-- The daemon loop after `n` steps from the initial state. -/
def daemonRun (results : Nat → Except String Unit) : Nat → DaemonState
  | 0 => daemonInit
  | n + 1 => daemonStep results (daemonRun results n)

/-! ## Helper lemmas -/

theorem acquireCookies_ok (env : Env) (l : List URL)
    (h : ∀ u ∈ l, (env.makeToken u).isOk = true) :
    acquireCookies env l = (l, .ok (producedCookies env l)) := by
  induction l with
  | nil => rfl
  | cons u rest ih =>
    have hu := h u (List.mem_cons_self u rest)
    cases hmt : env.makeToken u with
    | error e => rw [hmt] at hu; simp [Except.isOk, Except.toBool] at hu
    | ok token =>
      have hrest := ih (fun v hv => h v (List.mem_cons_of_mem u hv))
      simp [acquireCookies, hmt, hrest, producedCookies]

theorem acquireCookies_error (env : Env) (l : List URL)
    (h : ∃ u ∈ l, (env.makeToken u).isOk = false) :
    ∃ reqs e, acquireCookies env l = (reqs, .error e) := by
  induction l with
  | nil => simp at h
  | cons u rest ih =>
    cases hmt : env.makeToken u with
    | error e =>
      exact ⟨[u], "cannot create a token for " ++ u.host ++ ": " ++ e,
        by simp [acquireCookies, hmt]⟩
    | ok token =>
      obtain ⟨v, hv, hfail⟩ := h
      rcases List.mem_cons.mp hv with rfl | hv
      · rw [hmt] at hfail; simp [Except.isOk, Except.toBool] at hfail
      · obtain ⟨reqs, e, heq⟩ := ih ⟨v, hv, hfail⟩
        exact ⟨u :: reqs, e, by simp [acquireCookies, hmt, heq]⟩

theorem acquireCookies_requests_prefix (env : Env) (l : List URL) :
    ∃ k, (acquireCookies env l).1 = l.take k := by
  induction l with
  | nil => exact ⟨0, rfl⟩
  | cons u rest ih =>
    cases hmt : env.makeToken u with
    | error e => exact ⟨1, by simp [acquireCookies, hmt]⟩
    | ok token =>
      obtain ⟨k, hk⟩ := ih
      refine ⟨k + 1, ?_⟩
      simp [acquireCookies, hmt]
      exact hk

/-- The states the daemon loop can ever be in: one pass through the loop
body with a live timer, a second `writeCookie` call, and then the
permanently blocked receive. -/
def daemonReach (s : DaemonState) : Prop :=
  (s.pc = .run ∧ s.timer = ⟨true, false⟩ ∧ s.runs = 0) ∨
  (s.pc = .drain ∧ s.timer = ⟨true, false⟩ ∧ s.runs = 1) ∨
  (s.pc = .wait ∧ s.timer = ⟨true, false⟩ ∧ s.runs = 1) ∨
  (s.pc = .run ∧ s.timer = ⟨false, false⟩ ∧ s.runs = 1) ∨
  (s.pc = .drain ∧ s.timer = ⟨false, false⟩ ∧ s.runs = 2) ∨
  (s.pc = .blocked ∧ s.runs = 2)

theorem daemonReach_step (results : Nat → Except String Unit) (s : DaemonState)
    (h : daemonReach s) : daemonReach (daemonStep results s) := by
  obtain ⟨pc, timer, runs, logs⟩ := s
  rcases h with ⟨h1, h2, h3⟩ | ⟨h1, h2, h3⟩ | ⟨h1, h2, h3⟩ | ⟨h1, h2, h3⟩ |
    ⟨h1, h2, h3⟩ | ⟨h1, h3⟩ <;>
    simp only at h1 h3 <;> subst h1 <;> subst h3 <;>
    first
      | (simp only at h2; subst h2; simp [daemonStep, daemonReach])
      | simp [daemonStep, daemonReach]

theorem daemonReach_run (results : Nat → Except String Unit) (n : Nat) :
    daemonReach (daemonRun results n) := by
  induction n with
  | zero => exact Or.inl ⟨rfl, rfl, rfl⟩
  | succ n ih => exact daemonReach_step results _ ih

theorem daemon_runs_le_two (results : Nat → Except String Unit) (n : Nat) :
    (daemonRun results n).runs ≤ 2 := by
  have h := daemonReach_run results n
  rcases h with ⟨_, _, h3⟩ | ⟨_, _, h3⟩ | ⟨_, _, h3⟩ | ⟨_, _, h3⟩ | ⟨_, _, h3⟩ | ⟨_, h3⟩ <;>
    omega

theorem daemonStep_blocked (results : Nat → Except String Unit) (s : DaemonState)
    (h : s.pc = .blocked) : daemonStep results s = s := by
  obtain ⟨pc, timer, runs, logs⟩ := s
  simp only at h
  subst h
  rfl

theorem daemonRun_five_pc (results : Nat → Except String Unit) :
    (daemonRun results 5).pc = .blocked := rfl

theorem daemonRun_five_runs (results : Nat → Except String Unit) :
    (daemonRun results 5).runs = 2 := rfl

theorem daemonRun_blocked_after_five (results : Nat → Except String Unit) (n : Nat) :
    (daemonRun results (5 + n)).pc = .blocked ∧ (daemonRun results (5 + n)).runs = 2 := by
  induction n with
  | zero => exact ⟨daemonRun_five_pc results, daemonRun_five_runs results⟩
  | succ n ih =>
    have heq : daemonRun results (5 + (n + 1)) = daemonRun results (5 + n) := by
      show daemonStep results (daemonRun results (5 + n)) = daemonRun results (5 + n)
      exact daemonStep_blocked results _ ih.1
    rw [heq]
    exact ih

theorem writeCookie_stdout_spec (env : Env) (urls0 : List URL) (cfg : String)
    (hfind : env.findGitBinary = .ok ())
    (hurls : env.listURLs = .ok urls0)
    (htok : ∀ u ∈ normalizeURLs urls0, (env.makeToken u).isOk = true)
    (hcfg : env.pathConfig = .ok cfg)
    (hres : resolveOutputFile cfg env.currentUserHome = .ok "-") :
    writeCookie env =
      ⟨normalizeURLs urls0, [],
       outputLines env (producedCookies env (normalizeURLs urls0)),
       some .stdout, .ok ()⟩ := by
  have hacq := acquireCookies_ok env (normalizeURLs urls0) htok
  simp [writeCookie, hfind, hurls, hacq, hcfg, hres]

theorem writeCookie_file_spec (env : Env) (urls0 : List URL) (cfg out : String)
    (hfind : env.findGitBinary = .ok ())
    (hurls : env.listURLs = .ok urls0)
    (htok : ∀ u ∈ normalizeURLs urls0, (env.makeToken u).isOk = true)
    (hcfg : env.pathConfig = .ok cfg)
    (hres : resolveOutputFile cfg env.currentUserHome = .ok out)
    (hdash : out ≠ "-")
    (hmk : env.mkdirAllErr (dirOf out) = none)
    (hopen : env.openFileErr out = none) :
    writeCookie env =
      ⟨normalizeURLs urls0,
       [.mkdirAll (dirOf out) 0o700, .openFile out true true true 0o600],
       outputLines env (producedCookies env (normalizeURLs urls0)),
       some (.file out), .ok ()⟩ := by
  have hacq := acquireCookies_ok env (normalizeURLs urls0) htok
  have hne : (out == "-") = false := by
    simp [hdash]
  simp [writeCookie, hfind, hurls, hacq, hcfg, hres, hne, hmk, hopen]

/-- A configured URL that is not one of the well-known hosts, used as a
concrete input below. -/
def exampleURL : URL := ⟨"https", "example.com", ""⟩

theorem isGoogleSource_gsURL : isGoogleSource gsURL = true := by decide

theorem isSourceDevelopers_sdURL : isSourceDevelopers sdURL = true := by decide

theorem isGoogleSource_sdURL : isGoogleSource sdURL = false := by decide

theorem isSourceDevelopers_gsURL : isSourceDevelopers gsURL = false := by decide

/-! ## Claims -/

/-- C10: URL normalization is append-only and order-preserving — the
normalized list begins with exactly the configured entries, unchanged and
in order, followed by at most two appended default URLs, each with scheme
`https`, a well-known host and empty path. -/
theorem normalization_append_only (urls : List URL) :
    ∃ tail, normalizeURLs urls = urls ++ tail ∧ tail.length ≤ 2 ∧
      ∀ u ∈ tail, u.scheme = "https" ∧ u.path = "" ∧
        (u.host = "googlesource.com" ∨ u.host = "source.developers.google.com") := by
  unfold normalizeURLs
  by_cases hg : urls.any isGoogleSource = true <;>
    by_cases hs : urls.any isSourceDevelopers = true
  · exact ⟨[], by simp [hg, hs], by decide, by decide⟩
  · exact ⟨[sdURL], by simp [hg, hs], by decide, by decide⟩
  · exact ⟨[gsURL], by simp [hg, hs], by decide, by decide⟩
  · exact ⟨[gsURL, sdURL], by simp [hg, hs], by decide, by decide⟩

/-- C1 as stated is false: when the external list itself contains a
well-known host more than once (here `googlesource.com` with empty path,
twice), the normalized list keeps both occurrences — the host is present
twice, not exactly once. -/
theorem wellKnown_once_cex :
    ¬ ((normalizeURLs [gsURL, gsURL]).countP isGoogleSource = 1 ∧
       (normalizeURLs [gsURL, gsURL]).countP isSourceDevelopers = 1) := by
  decide

/-- `normalizeURLs` written as one append: the input followed by a default
URL for each well-known host the input does not contain. -/
theorem normalizeURLs_eq (urls : List URL) :
    normalizeURLs urls =
      urls ++ (if urls.any isGoogleSource then [] else [gsURL]) ++
        (if urls.any isSourceDevelopers then [] else [sdURL]) := by
  unfold normalizeURLs
  cases urls.any isGoogleSource <;> cases urls.any isSourceDevelopers <;> simp

theorem countP_pos_of_any {p : URL → Bool} {l : List URL} (h : l.any p = true) :
    0 < l.countP p := by
  rw [List.countP_pos_iff]
  simpa [List.any_eq_true] using h

theorem countP_eq_zero_of_any_false {p : URL → Bool} {l : List URL}
    (h : l.any p = false) : l.countP p = 0 := by
  rw [List.countP_eq_zero]
  intro u hu
  exact List.any_eq_false.mp h u hu

/-- The number of `googlesource.com` entries (empty or root path) after
normalization: unchanged when the input contains one, else exactly 1. -/
theorem normalizeURLs_countP_gs (urls : List URL) :
    (normalizeURLs urls).countP isGoogleSource =
      if urls.any isGoogleSource then urls.countP isGoogleSource else 1 := by
  rw [normalizeURLs_eq]
  cases hga : urls.any isGoogleSource <;> cases hsa : urls.any isSourceDevelopers <;>
    simp [List.countP_append, List.countP_cons, isGoogleSource_gsURL,
      isGoogleSource_sdURL, countP_eq_zero_of_any_false, hga]

/-- The number of `source.developers.google.com` entries (empty or root
path) after normalization: unchanged when the input contains one, else
exactly 1. -/
theorem normalizeURLs_countP_sd (urls : List URL) :
    (normalizeURLs urls).countP isSourceDevelopers =
      if urls.any isSourceDevelopers then urls.countP isSourceDevelopers else 1 := by
  rw [normalizeURLs_eq]
  cases hga : urls.any isGoogleSource <;> cases hsa : urls.any isSourceDevelopers <;>
    simp [List.countP_append, List.countP_cons, isSourceDevelopers_gsURL,
      isSourceDevelopers_sdURL, countP_eq_zero_of_any_false, hsa]

/-- C1 amended: each well-known host (exact host, empty or root path)
appears in the normalized list at least once, whatever the external list
is; it appears exactly once whenever the external list contains that host
at most once (independently per host); and when the external list already
contains the host, its occurrence count is unchanged — the code never adds
a host that is present, and it keeps any duplicates the external list
already had. -/
theorem wellKnown_host_counts_normalized (urls : List URL) :
    1 ≤ (normalizeURLs urls).countP isGoogleSource ∧
    1 ≤ (normalizeURLs urls).countP isSourceDevelopers ∧
    (urls.countP isGoogleSource ≤ 1 →
      (normalizeURLs urls).countP isGoogleSource = 1) ∧
    (urls.countP isSourceDevelopers ≤ 1 →
      (normalizeURLs urls).countP isSourceDevelopers = 1) ∧
    (urls.any isGoogleSource = true →
      (normalizeURLs urls).countP isGoogleSource = urls.countP isGoogleSource) ∧
    (urls.any isSourceDevelopers = true →
      (normalizeURLs urls).countP isSourceDevelopers =
        urls.countP isSourceDevelopers) := by
  rw [normalizeURLs_countP_gs, normalizeURLs_countP_sd]
  refine ⟨?_, ?_, ?_, ?_, ?_, ?_⟩
  · cases hga : urls.any isGoogleSource
    · rw [if_neg (by simp)]
    · have := countP_pos_of_any (p := isGoogleSource) hga
      rw [if_pos rfl]
      omega
  · cases hsa : urls.any isSourceDevelopers
    · rw [if_neg (by simp)]
    · have := countP_pos_of_any (p := isSourceDevelopers) hsa
      rw [if_pos rfl]
      omega
  · intro h
    cases hga : urls.any isGoogleSource
    · rw [if_neg (by simp)]
    · have := countP_pos_of_any (p := isGoogleSource) hga
      rw [if_pos rfl]
      omega
  · intro h
    cases hsa : urls.any isSourceDevelopers
    · rw [if_neg (by simp)]
    · have := countP_pos_of_any (p := isSourceDevelopers) hsa
      rw [if_pos rfl]
      omega
  · intro hga
    simp [hga]
  · intro hsa
    simp [hsa]

/-- Concrete instance of `wellKnown_host_counts_normalized` at the
external list `[gsURL, gsURL]` — the motivating input: the duplicated
`googlesource.com` is kept with count 2 (the exactly-once implication is
vacuous for it), while `source.developers.google.com` is added exactly
once. -/
theorem wellKnown_host_counts_witness :
    1 ≤ (normalizeURLs [gsURL, gsURL]).countP isGoogleSource ∧
    1 ≤ (normalizeURLs [gsURL, gsURL]).countP isSourceDevelopers ∧
    ([gsURL, gsURL].countP isGoogleSource ≤ 1 →
      (normalizeURLs [gsURL, gsURL]).countP isGoogleSource = 1) ∧
    ([gsURL, gsURL].countP isSourceDevelopers ≤ 1 →
      (normalizeURLs [gsURL, gsURL]).countP isSourceDevelopers = 1) ∧
    ([gsURL, gsURL].any isGoogleSource = true →
      (normalizeURLs [gsURL, gsURL]).countP isGoogleSource =
        [gsURL, gsURL].countP isGoogleSource) ∧
    ([gsURL, gsURL].any isSourceDevelopers = true →
      (normalizeURLs [gsURL, gsURL]).countP isSourceDevelopers =
        [gsURL, gsURL].countP isSourceDevelopers) :=
  wellKnown_host_counts_normalized [gsURL, gsURL]

theorem writeCookie_requests (env : Env) (urls0 : List URL)
    (hfind : env.findGitBinary = .ok ())
    (hurls : env.listURLs = .ok urls0) :
    (writeCookie env).requests = (acquireCookies env (normalizeURLs urls0)).1 := by
  unfold writeCookie
  simp only [hfind, hurls]
  rcases hacq : acquireCookies env (normalizeURLs urls0) with ⟨reqs, res⟩
  cases res <;> (repeat' split) <;> simp_all

/-- C4 fails as stated: for the external list `[exampleURL, exampleURL]`,
which contains neither well-known host, the normalized list is the input
followed by the two well-known hosts but it is not duplicate-free — the
code never removes duplicates already present in the external list. -/
theorem normalized_nodup_cex :
    ¬ ((∀ u ∈ [exampleURL, exampleURL],
          isGoogleSource u = false ∧ isSourceDevelopers u = false) →
       normalizeURLs [exampleURL, exampleURL] =
         [exampleURL, exampleURL] ++ [gsURL, sdURL] ∧
       (normalizeURLs [exampleURL, exampleURL]).Nodup) := by
  decide

/-- C4 amended: for a duplicate-free external list containing neither
well-known host, the normalized list is exactly the input followed by the
two well-known hosts and is duplicate-free; a well-known host already
present (empty or root path) is never added again (its occurrence count is
unchanged); the empty list normalizes to the two well-known hosts, and a
run on the empty list with all token requests succeeding requests exactly
the two well-known URLs. -/
theorem normalized_set_characterization (urls : List URL) (env : Env)
    (hfind : env.findGitBinary = .ok ())
    (hurls : env.listURLs = .ok [])
    (htok : ∀ u, (env.makeToken u).isOk = true) :
    (urls.Nodup →
      (∀ u ∈ urls, isGoogleSource u = false ∧ isSourceDevelopers u = false) →
      normalizeURLs urls = urls ++ [gsURL, sdURL] ∧ (normalizeURLs urls).Nodup) ∧
    (urls.any isGoogleSource = true →
      (normalizeURLs urls).countP isGoogleSource = urls.countP isGoogleSource) ∧
    (urls.any isSourceDevelopers = true →
      (normalizeURLs urls).countP isSourceDevelopers =
        urls.countP isSourceDevelopers) ∧
    normalizeURLs [] = [gsURL, sdURL] ∧
    (writeCookie env).requests = [gsURL, sdURL] := by
  refine ⟨?_, ?_, ?_, by decide, ?_⟩
  · intro hnd hwk
    have hga : urls.any isGoogleSource = false := by
      rw [List.any_eq_false]
      intro u hu
      simp [(hwk u hu).1]
    have hsa : urls.any isSourceDevelopers = false := by
      rw [List.any_eq_false]
      intro u hu
      simp [(hwk u hu).2]
    have heq : normalizeURLs urls = urls ++ [gsURL, sdURL] := by
      rw [normalizeURLs_eq, hga, hsa]
      simp
    refine ⟨heq, ?_⟩
    rw [heq, List.nodup_append]
    refine ⟨hnd, by decide, ?_⟩
    intro u hu hmem
    have := hwk u hu
    rcases List.mem_cons.mp hmem with rfl | hmem2
    · rw [isGoogleSource_gsURL] at this
      exact absurd this.1 (by simp)
    · rcases List.mem_cons.mp hmem2 with rfl | hmem3
      · rw [isSourceDevelopers_sdURL] at this
        exact absurd this.2 (by simp)
      · simp at hmem3
  · intro hga
    rw [normalizeURLs_eq, hga]
    cases urls.any isSourceDevelopers <;>
      simp [List.countP_append, isGoogleSource_sdURL]
  · intro hsa
    rw [normalizeURLs_eq, hsa]
    cases urls.any isGoogleSource <;>
      simp [List.countP_append, isSourceDevelopers_gsURL]
  · rw [writeCookie_requests env [] hfind hurls,
      acquireCookies_ok env (normalizeURLs []) (fun u _ => htok u)]
    rfl

/-- Concrete instance of `normalized_set_characterization` at the external
list `[exampleURL]` and an environment whose collaborators all succeed. -/
theorem normalized_set_witness :
    (([exampleURL].Nodup →
      (∀ u ∈ [exampleURL], isGoogleSource u = false ∧ isSourceDevelopers u = false) →
      normalizeURLs [exampleURL] = [exampleURL] ++ [gsURL, sdURL] ∧
        (normalizeURLs [exampleURL]).Nodup) ∧
    ([exampleURL].any isGoogleSource = true →
      (normalizeURLs [exampleURL]).countP isGoogleSource =
        [exampleURL].countP isGoogleSource) ∧
    ([exampleURL].any isSourceDevelopers = true →
      (normalizeURLs [exampleURL]).countP isSourceDevelopers =
        [exampleURL].countP isSourceDevelopers) ∧
    normalizeURLs [] = [gsURL, sdURL] ∧
    (writeCookie
      ⟨.ok (), .ok [], fun _ => .ok ⟨"tok"⟩, fun _ _ => [], .ok "-", .ok "/home/u",
       fun _ => none, fun _ => none, "googlesource-cookieauth", "2026-10-11T00:00:00Z",
       none, fun _ => none, fun _ => ""⟩).requests = [gsURL, sdURL]) :=
  normalized_set_characterization [exampleURL]
    ⟨.ok (), .ok [], fun _ => .ok ⟨"tok"⟩, fun _ _ => [], .ok "-", .ok "/home/u",
     fun _ => none, fun _ => none, "googlesource-cookieauth", "2026-10-11T00:00:00Z",
     none, fun _ => none, fun _ => ""⟩
    rfl rfl (fun _ => rfl)

/-- A sample serializer for witness environments: domain and value
separated by a space, on one line. -/
def sampleSerialize (c : Cookie) : String :=
  c.domain ++ " " ++ c.value

/-- A concrete environment in which every collaborator succeeds and
`google.cookieFile` is configured as `/home/user/.cookies/jar`. -/
def fileEnv : Env :=
  ⟨.ok (), .ok [], fun _ => .ok ⟨"token"⟩,
   fun u _ => [⟨u.host, "/", "secret", 0, true⟩],
   .ok "/home/user/.cookies/jar", .ok "/home/user",
   fun _ => none, fun _ => none,
   "googlesource-cookieauth", "2026-10-11T00:00:00Z",
   none, fun _ => none, sampleSerialize⟩

/-- `fileEnv` with `google.cookieFile` configured as `-` (standard
output). -/
def stdoutEnv : Env :=
  ⟨.ok (), .ok [], fun _ => .ok ⟨"token"⟩,
   fun u _ => [⟨u.host, "/", "secret", 0, true⟩],
   .ok "-", .ok "/home/user",
   fun _ => none, fun _ => none,
   "googlesource-cookieauth", "2026-10-11T00:00:00Z",
   none, fun _ => none, sampleSerialize⟩

/-- `fileEnv` with the token provider failing on every URL. -/
def tokenFailEnv : Env :=
  ⟨.ok (), .ok [], fun _ => .error "permission denied",
   fun _ _ => [], .ok "/home/user/.cookies/jar", .ok "/home/user",
   fun _ => none, fun _ => none,
   "googlesource-cookieauth", "2026-10-11T00:00:00Z",
   none, fun _ => none, sampleSerialize⟩

/-- C3: if token acquisition fails for any URL in the normalized set, the
whole run returns an error having performed no filesystem call at all (in
particular no file creation, truncation or write — token acquisition
happens before the output path is even resolved), and nothing was written
to any sink. -/
theorem token_failure_aborts_without_output (env : Env) (urls0 : List URL)
    (hfind : env.findGitBinary = .ok ())
    (hurls : env.listURLs = .ok urls0)
    (hfail : ∃ u ∈ normalizeURLs urls0, (env.makeToken u).isOk = false) :
    (writeCookie env).result.isOk = false ∧
    (writeCookie env).fsCalls = [] ∧
    (writeCookie env).lines = [] ∧
    (writeCookie env).sink = none := by
  obtain ⟨reqs, e, hacq⟩ := acquireCookies_error env (normalizeURLs urls0) hfail
  unfold writeCookie
  simp only [hfind, hurls]
  rw [hacq]
  simp [Except.isOk, Except.toBool]

/-- Concrete instance of `token_failure_aborts_without_output`: in
`tokenFailEnv` the provider refuses every URL, the run fails and no
filesystem call or output happens. -/
theorem token_failure_witness :
    (writeCookie tokenFailEnv).result.isOk = false ∧
    (writeCookie tokenFailEnv).fsCalls = [] ∧
    (writeCookie tokenFailEnv).lines = [] ∧
    (writeCookie tokenFailEnv).sink = none :=
  token_failure_aborts_without_output tokenFailEnv [] rfl rfl
    ⟨gsURL, by decide, rfl⟩

/-- C6: the output destination is the `google.cookieFile` value when
non-empty, otherwise the default path under the current user home
directory; a resolved value of `-` selects standard output (no file is
touched), any other resolved value selects that file. -/
theorem output_destination_resolution (env : Env) (urls0 : List URL) (cfg : String)
    (hfind : env.findGitBinary = .ok ())
    (hurls : env.listURLs = .ok urls0)
    (htok : ∀ u ∈ normalizeURLs urls0, (env.makeToken u).isOk = true)
    (hcfg : env.pathConfig = .ok cfg) :
    (cfg ≠ "" → resolveOutputFile cfg env.currentUserHome = .ok cfg) ∧
    (∀ home, env.currentUserHome = .ok home →
      resolveOutputFile "" env.currentUserHome =
        .ok (home ++ "/.git-credential-cache/googlesource-cookieauth-cookie")) ∧
    (resolveOutputFile cfg env.currentUserHome = .ok "-" →
      (writeCookie env).sink = some Sink.stdout ∧ (writeCookie env).fsCalls = []) ∧
    (∀ out, resolveOutputFile cfg env.currentUserHome = .ok out → out ≠ "-" →
      env.mkdirAllErr (dirOf out) = none → env.openFileErr out = none →
      (writeCookie env).sink = some (Sink.file out)) := by
  refine ⟨?_, ?_, ?_, ?_⟩
  · intro hne
    simp [resolveOutputFile, hne]
  · intro home hh
    simp [resolveOutputFile, hh]
  · intro hres
    rw [writeCookie_stdout_spec env urls0 cfg hfind hurls htok hcfg hres]
    exact ⟨rfl, rfl⟩
  · intro out hres hdash hmk hopen
    rw [writeCookie_file_spec env urls0 cfg out hfind hurls htok hcfg hres hdash hmk hopen]

/-- Concrete instance of `output_destination_resolution` in `stdoutEnv`,
whose configured cookie file is `-`. -/
theorem output_destination_witness :
    ("-" ≠ "" → resolveOutputFile "-" stdoutEnv.currentUserHome = .ok "-") ∧
    (∀ home, stdoutEnv.currentUserHome = .ok home →
      resolveOutputFile "" stdoutEnv.currentUserHome =
        .ok (home ++ "/.git-credential-cache/googlesource-cookieauth-cookie")) ∧
    (resolveOutputFile "-" stdoutEnv.currentUserHome = .ok "-" →
      (writeCookie stdoutEnv).sink = some Sink.stdout ∧
        (writeCookie stdoutEnv).fsCalls = []) ∧
    (∀ out, resolveOutputFile "-" stdoutEnv.currentUserHome = .ok out → out ≠ "-" →
      stdoutEnv.mkdirAllErr (dirOf out) = none → stdoutEnv.openFileErr out = none →
      (writeCookie stdoutEnv).sink = some (Sink.file out)) :=
  output_destination_resolution stdoutEnv [] "-" rfl rfl (fun _ _ => rfl) rfl

/-- C7: on a successful run the sink receives exactly one header comment
line naming the invoking program and the current timestamp, followed by one
serialized line per cookie record in production order; when the sink is a
file it was opened with create, write-only and truncate flags, so prior
contents are discarded rather than appended to. -/
theorem successful_run_output_shape (env : Env) (urls0 : List URL) (cfg out : String)
    (hfind : env.findGitBinary = .ok ())
    (hurls : env.listURLs = .ok urls0)
    (htok : ∀ u ∈ normalizeURLs urls0, (env.makeToken u).isOk = true)
    (hcfg : env.pathConfig = .ok cfg)
    (hres : resolveOutputFile cfg env.currentUserHome = .ok out)
    (hio : out = "-" ∨
      (env.mkdirAllErr (dirOf out) = none ∧ env.openFileErr out = none)) :
    (writeCookie env).result = .ok () ∧
    (writeCookie env).lines =
      ("# Created by " ++ env.argv0 ++ " at " ++ env.now) ::
        (producedCookies env (normalizeURLs urls0)).map env.serialize ∧
    (∀ p, (writeCookie env).sink = some (Sink.file p) →
      FsCall.openFile p true true true 0o600 ∈ (writeCookie env).fsCalls) := by
  rcases hio with rfl | ⟨hmk, hopen⟩
  · rw [writeCookie_stdout_spec env urls0 cfg hfind hurls htok hcfg hres]
    refine ⟨rfl, rfl, ?_⟩
    intro p hp
    simp at hp
  · by_cases hdash : out = "-"
    · subst hdash
      rw [writeCookie_stdout_spec env urls0 cfg hfind hurls htok hcfg hres]
      refine ⟨rfl, rfl, ?_⟩
      intro p hp
      simp at hp
    · rw [writeCookie_file_spec env urls0 cfg out hfind hurls htok hcfg hres hdash hmk hopen]
      refine ⟨rfl, rfl, ?_⟩
      intro p hp
      simp only [Option.some.injEq, Sink.file.injEq] at hp
      subst hp
      simp

/-- Concrete instance of `successful_run_output_shape` in `fileEnv`: the
two default cookies are written after the header line, and the file was
opened with the truncate flag. -/
theorem successful_run_output_witness :
    (writeCookie fileEnv).result = .ok () ∧
    (writeCookie fileEnv).lines =
      ("# Created by " ++ fileEnv.argv0 ++ " at " ++ fileEnv.now) ::
        (producedCookies fileEnv (normalizeURLs [])).map fileEnv.serialize ∧
    (∀ p, (writeCookie fileEnv).sink = some (Sink.file p) →
      FsCall.openFile p true true true 0o600 ∈ (writeCookie fileEnv).fsCalls) :=
  successful_run_output_shape fileEnv [] "/home/user/.cookies/jar"
    "/home/user/.cookies/jar" rfl rfl (fun _ _ => rfl) rfl rfl
    (Or.inr ⟨rfl, rfl⟩)

/-- C8: when writing to a file path, the parent directory is created with
mode `0700` (owner-only full permission) and the file is created or
truncated with mode `0600` (owner read-write only); these are the only two
filesystem calls. -/
theorem file_and_directory_permissions (env : Env) (urls0 : List URL) (cfg out : String)
    (hfind : env.findGitBinary = .ok ())
    (hurls : env.listURLs = .ok urls0)
    (htok : ∀ u ∈ normalizeURLs urls0, (env.makeToken u).isOk = true)
    (hcfg : env.pathConfig = .ok cfg)
    (hres : resolveOutputFile cfg env.currentUserHome = .ok out)
    (hdash : out ≠ "-")
    (hmk : env.mkdirAllErr (dirOf out) = none)
    (hopen : env.openFileErr out = none) :
    (writeCookie env).fsCalls =
      [FsCall.mkdirAll (dirOf out) 0o700,
       FsCall.openFile out true true true 0o600] := by
  rw [writeCookie_file_spec env urls0 cfg out hfind hurls htok hcfg hres hdash hmk hopen]

/-- Concrete instance of `file_and_directory_permissions` in `fileEnv`. -/
theorem file_permissions_witness :
    (writeCookie fileEnv).fsCalls =
      [FsCall.mkdirAll (dirOf "/home/user/.cookies/jar") 0o700,
       FsCall.openFile "/home/user/.cookies/jar" true true true 0o600] :=
  file_and_directory_permissions fileEnv [] "/home/user/.cookies/jar"
    "/home/user/.cookies/jar" rfl rfl (fun _ _ => rfl) rfl rfl
    (by decide) rfl rfl

/-- `fileEnv` in which the header write and every cookie marshal report a
`disk full` error. -/
def writeErrEnv : Env :=
  ⟨.ok (), .ok [], fun _ => .ok ⟨"token"⟩,
   fun u _ => [⟨u.host, "/", "secret", 0, true⟩],
   .ok "/home/user/.cookies/jar", .ok "/home/user",
   fun _ => none, fun _ => none,
   "googlesource-cookieauth", "2026-10-11T00:00:00Z",
   some "disk full", fun _ => some "disk full", sampleSerialize⟩

/-- C9: once the destination is resolved and (for a file) opened
successfully, `writeCookie` returns success whatever the outcomes of the
header write and of each cookie marshal are — the hypotheses leave the
environment components recording those outcomes completely unconstrained,
because the code never consults them. -/
theorem write_errors_discarded (env : Env) (urls0 : List URL) (cfg out : String)
    (hfind : env.findGitBinary = .ok ())
    (hurls : env.listURLs = .ok urls0)
    (htok : ∀ u ∈ normalizeURLs urls0, (env.makeToken u).isOk = true)
    (hcfg : env.pathConfig = .ok cfg)
    (hres : resolveOutputFile cfg env.currentUserHome = .ok out)
    (hio : out = "-" ∨
      (env.mkdirAllErr (dirOf out) = none ∧ env.openFileErr out = none)) :
    (writeCookie env).result = .ok () := by
  rcases hio with rfl | ⟨hmk, hopen⟩
  · rw [writeCookie_stdout_spec env urls0 cfg hfind hurls htok hcfg hres]
  · by_cases hdash : out = "-"
    · subst hdash
      rw [writeCookie_stdout_spec env urls0 cfg hfind hurls htok hcfg hres]
    · rw [writeCookie_file_spec env urls0 cfg out hfind hurls htok hcfg hres hdash hmk hopen]

/-- Concrete instance of `write_errors_discarded`: even with the header
write and every marshal reporting `disk full`, the run returns success. -/
theorem write_errors_discarded_witness :
    (writeCookie writeErrEnv).result = .ok () :=
  write_errors_discarded writeErrEnv [] "/home/user/.cookies/jar"
    "/home/user/.cookies/jar" rfl rfl (fun _ _ => rfl) rfl rfl
    (Or.inr ⟨rfl, rfl⟩)

/-- C2: the daemon loop does NOT repeat indefinitely.  The first iteration
runs, waits out the interval and starts a second run, but at the start of
the second iteration `timer.Stop()` returns `false` (the timer already
fired and its value was received by the `<-timer.C` at the bottom of the
loop), so the drain `<-timer.C` blocks forever on the empty channel of a
stopped timer: after five loop steps the daemon is permanently blocked,
exactly two `writeCookie` runs ever happen, and iteration 3 never starts —
whatever the per-run outcomes are. -/
theorem daemon_deadlocks_after_second_run (results : Nat → Except String Unit) (n : Nat) :
    (daemonRun results (5 + n)).pc = .blocked ∧
    (daemonRun results (5 + n)).runs = 2 ∧
    ∀ m, (daemonRun results m).runs ≤ 2 :=
  ⟨(daemonRun_blocked_after_five results n).1,
   (daemonRun_blocked_after_five results n).2,
   daemon_runs_le_two results⟩

/-- C5: a one-shot failure is a fatal exit with the error message and a
one-shot success a normal exit; a daemon-mode failure is only logged
(`Cannot write cookies: ...`) and the process does not exit — the first
failed run is followed by a second run.  But the schedule does not always
continue to the next iteration: no more than two runs ever happen, because
the loop blocks forever after the second run.  Within a run the requested
URLs are an in-order prefix of the normalized list, so no URL is retried. -/
theorem oneshot_fatal_daemon_logs_failures (results : Nat → Except String Unit)
    (e : String) (env : Env) (urls0 : List URL)
    (hr0 : results 0 = .error e)
    (hfind : env.findGitBinary = .ok ())
    (hurls : env.listURLs = .ok urls0) :
    oneShotMain (.error e) = .fatalExit ("Cannot write cookies: " ++ e) ∧
    oneShotMain (.ok ()) = .normalExit ∧
    (daemonRun results 1).logs = ["Cannot write cookies: " ++ e] ∧
    (daemonRun results 4).runs = 2 ∧
    (∀ m, (daemonRun results m).runs ≤ 2) ∧
    (∃ k, (writeCookie env).requests = (normalizeURLs urls0).take k) := by
  refine ⟨rfl, rfl, ?_, rfl, daemon_runs_le_two results, ?_⟩
  · simp [daemonRun, daemonInit, daemonStep, hr0]
  · rw [writeCookie_requests env urls0 hfind hurls]
    exact acquireCookies_requests_prefix env (normalizeURLs urls0)

/-- Concrete instance of `oneshot_fatal_daemon_logs_failures`: the first
daemon run fails with `provider unavailable`, the failure is logged, a
second run still happens, and no run beyond the second ever does. -/
theorem oneshot_fatal_daemon_witness :
    oneShotMain (.error "provider unavailable") =
      .fatalExit ("Cannot write cookies: " ++ "provider unavailable") ∧
    oneShotMain (.ok ()) = .normalExit ∧
    (daemonRun (fun n => if n = 0 then .error "provider unavailable" else .ok ()) 1).logs =
      ["Cannot write cookies: " ++ "provider unavailable"] ∧
    (daemonRun (fun n => if n = 0 then .error "provider unavailable" else .ok ()) 4).runs = 2 ∧
    (∀ m, (daemonRun (fun n => if n = 0 then .error "provider unavailable" else .ok ()) m).runs ≤ 2) ∧
    (∃ k, (writeCookie fileEnv).requests = (normalizeURLs []).take k) :=
  oneshot_fatal_daemon_logs_failures
    (fun n => if n = 0 then .error "provider unavailable" else .ok ())
    "provider unavailable" fileEnv [] rfl rfl rfl

end GoogleSourceCookieAuth
